import Mathlib

/-!
Verification of the Six Nations Fantasy Predictor backend services
(`backend/app/services/optimiser.py`, `scoring.py`, `predictor.py`).

The Python code is shallowly embedded: Python floats are modelled as exact
rationals, Python ints as integers, Python lists as Lean lists.  The team
optimiser delegates the integer program to the external pulp/CBC solver;
the solver is modelled by a `SolverOutcome` argument (either a non-optimal
status, or an optimal status together with the 0/1 assignment the solver
returned), and the theorems about the optimiser take solver soundness —
an "Optimal" status implies the returned assignment satisfies the
constraints that `optimise_team` posted — as a hypothesis.
-/

namespace SixNations

/-- Enumeration `Country` from `app/schemas/player.py`. -/
inductive Country
  | ireland
  | england
  | france
  | wales
  | scotland
  | italy
deriving DecidableEq

/-- String value of each `Country` member, as in the Python `str` enum. -/
def Country.value : Country → String
  | .ireland => "Ireland"
  | .england => "England"
  | .france => "France"
  | .wales => "Wales"
  | .scotland => "Scotland"
  | .italy => "Italy"

/-- Iteration order of the `Country` enum (`for country in Country`). -/
def countryList : List Country :=
  [.ireland, .england, .france, .wales, .scotland, .italy]

/-- Lookup by value, modelling the Python constructor call `Country(s)`
(which raises `ValueError` on an unknown value, here `none`). -/
def Country.fromString (s : String) : Option Country :=
  if s = "Ireland" then some .ireland
  else if s = "England" then some .england
  else if s = "France" then some .france
  else if s = "Wales" then some .wales
  else if s = "Scotland" then some .scotland
  else if s = "Italy" then some .italy
  else none

/-- Enumeration `Position` from `app/schemas/player.py`. -/
inductive Position
  | prop
  | hooker
  | second_row
  | back_row
  | scrum_half
  | out_half
  | centre
  | back_3
deriving DecidableEq

/-- String value of each `Position` member. -/
def Position.value : Position → String
  | .prop => "prop"
  | .hooker => "hooker"
  | .second_row => "second_row"
  | .back_row => "back_row"
  | .scrum_half => "scrum_half"
  | .out_half => "out_half"
  | .centre => "centre"
  | .back_3 => "back_3"

/-- Declaration order of the `Position` enum, i.e. Python `list(Position)`. -/
def positionList : List Position :=
  [.prop, .hooker, .second_row, .back_row, .scrum_half, .out_half, .centre, .back_3]

/-- Lookup by value, modelling the Python constructor call `Position(s)`. -/
def Position.fromString (s : String) : Option Position :=
  if s = "prop" then some .prop
  else if s = "hooker" then some .hooker
  else if s = "second_row" then some .second_row
  else if s = "back_row" then some .back_row
  else if s = "scrum_half" then some .scrum_half
  else if s = "out_half" then some .out_half
  else if s = "centre" then some .centre
  else if s = "back_3" then some .back_3
  else none

/-- Dataclass `OptimiserPlayer` from `app/services/optimiser.py`.
`country` and `fantasy_position` are plain strings in the source. -/
structure OptimiserPlayer where
  id : Int
  name : String
  country : String
  fantasy_position : String
  price : ℚ
  predicted_points : ℚ
  is_available : Bool := true
  is_starting : Option Bool := none
deriving DecidableEq

/-- Pydantic model `PlayerSummary` from `app/schemas/player.py`, restricted to
the fields that `optimise_team` fills in; the remaining optional fields
(club, league, points_per_star, value_score, recent_form, anytime_try_odds)
keep their `None` default in every summary the optimiser constructs and are
omitted here. -/
structure PlayerSummary where
  id : Int
  name : String
  country : Country
  fantasy_position : Position
  price : Option ℚ
  is_available : Bool
  is_starting : Option Bool
  predicted_points : Option ℚ
deriving DecidableEq

/-- Pydantic model `StartingXV` from `app/schemas/team.py`. -/
structure StartingXV where
  props : List PlayerSummary
  hooker : Option PlayerSummary
  second_row : List PlayerSummary
  back_row : List PlayerSummary
  scrum_half : Option PlayerSummary
  out_half : Option PlayerSummary
  centres : List PlayerSummary
  back_3 : List PlayerSummary
deriving DecidableEq

/-- Pydantic model `OptimisedTeam` from `app/schemas/team.py`. -/
structure OptimisedTeam where
  starting_xv : StartingXV
  bench : List PlayerSummary
  captain : Option PlayerSummary
  super_sub : Option PlayerSummary
  total_cost : ℚ
  total_predicted_points : ℚ
  remaining_budget : ℚ
  empty_slots : List Position
deriving DecidableEq

/-- The dict `POSITION_LIMITS` of `optimiser.py` (insertion order preserved). -/
def POSITION_LIMITS : List (Position × Nat) :=
  [(.prop, 2), (.hooker, 1), (.second_row, 2), (.back_row, 3),
   (.scrum_half, 1), (.out_half, 1), (.centre, 2), (.back_3, 3)]

/-- A 0/1 valuation of the four families of binary decision variables
(`start_`, `bench_`, `captain_`, `supersub_`), keyed by player id exactly as
the pulp variable dicts `x`, `b`, `c`, `s` are. -/
structure Assignment where
  x : Int → Bool
  b : Int → Bool
  c : Int → Bool
  s : Int → Bool

/-- Result of the external `prob.solve()` call: either pulp reports the
status "Optimal" and every variable carries a 0/1 value, or it reports any
other status. -/
inductive SolverOutcome
  | optimal (a : Assignment)
  | failed

/-- The candidate pool: `[p for p in players if p.is_available and p.id not in excluded_players]`. -/
def availablePlayers (players : List OptimiserPlayer) (excluded_players : List Int) :
    List OptimiserPlayer :=
  players.filter (fun p => p.is_available && !(excluded_players.contains p.id))

/-- Rational value of a binary decision variable. -/
def boolQ (v : Bool) : ℚ := if v then 1 else 0

/-- Natural-number value of a binary decision variable. -/
def condNat (v : Bool) : Nat := if v then 1 else 0

/-- The conjunction of the constraints that `optimise_team` adds to the pulp
problem (source lines 84-130), evaluated on a 0/1 assignment.  Each sum
ranges over the `available_players` list exactly as the corresponding
`lpSum` does; sums of bare binary variables are rendered with `countP`. -/
def satisfiesConstraints (pool : List OptimiserPlayer) (budget : ℚ) (max_per_country : Int)
    (locked_players : List Int) (include_bench : Bool) (a : Assignment) : Prop :=
  ((pool.map (fun p => p.price * (boolQ (a.x p.id) + boolQ (a.b p.id)))).sum ≤ budget)
  ∧ (∀ pl ∈ POSITION_LIMITS,
      pool.filter (fun p => decide (p.fantasy_position = pl.1.value)) ≠ [] →
      (pool.filter (fun p => decide (p.fantasy_position = pl.1.value))).countP
        (fun p => a.x p.id) ≤ pl.2)
  ∧ (if include_bench then pool.countP (fun p => a.b p.id) ≤ 3
     else ∀ p ∈ pool, a.b p.id = false)
  ∧ (∀ c ∈ countryList,
      pool.filter (fun p => decide (p.country = c.value)) ≠ [] →
      (((pool.filter (fun p => decide (p.country = c.value))).map
          (fun p => condNat (a.x p.id) + condNat (a.b p.id))).sum : Int) ≤ max_per_country)
  ∧ (∀ p ∈ pool, ¬(a.x p.id = true ∧ a.b p.id = true))
  ∧ (pool.countP (fun p => a.c p.id) = 1)
  ∧ (∀ p ∈ pool, a.c p.id = true → (a.x p.id = true ∨ a.b p.id = true))
  ∧ (if include_bench then
       pool.countP (fun p => a.s p.id) = 1 ∧ ∀ p ∈ pool, a.s p.id = true → a.b p.id = true
     else ∀ p ∈ pool, a.s p.id = false)
  ∧ (∀ i ∈ locked_players, pool.any (fun p => decide (p.id = i)) = true →
       (a.x i = true ∨ a.b i = true))

/-- Construction of a `PlayerSummary` from an `OptimiserPlayer` (source lines
155-164); `none` models the `ValueError` raised by `Country(p.country)` or
`Position(p.fantasy_position)` on an unknown string. -/
def toSummary (p : OptimiserPlayer) : Option PlayerSummary :=
  match Country.fromString p.country, Position.fromString p.fantasy_position with
  | some c, some pos =>
      some { id := p.id, name := p.name, country := c, fantasy_position := pos,
             price := some p.price, is_available := p.is_available,
             is_starting := p.is_starting, predicted_points := some p.predicted_points }
  | _, _ => none

/-- The summaries of all pool players, in pool order; `none` if any
conversion raises. -/
def toSummaries : List OptimiserPlayer → Option (List PlayerSummary)
  | [] => some []
  | p :: rest =>
      match toSummary p, toSummaries rest with
      | some z, some zs => some (z :: zs)
      | _, _ => none

/-- The last element of the list satisfying the test, i.e. the final value of
a loop that overwrites a variable whenever the test holds (source lines
170-173 for captain and super-sub). -/
def lastWhere (f : PlayerSummary → Bool) (l : List PlayerSummary) : Option PlayerSummary :=
  l.foldl (fun acc z => if f z then some z else acc) none

/-- Partition of the starting players into position buckets (source lines
176-185); the singleton slots take the first match, as Python next does. -/
def buildStartingXV (starting_players : List PlayerSummary) : StartingXV :=
  { props := starting_players.filter (fun z => decide (z.fantasy_position = Position.prop)),
    hooker := starting_players.find? (fun z => decide (z.fantasy_position = Position.hooker)),
    second_row := starting_players.filter (fun z => decide (z.fantasy_position = Position.second_row)),
    back_row := starting_players.filter (fun z => decide (z.fantasy_position = Position.back_row)),
    scrum_half := starting_players.find? (fun z => decide (z.fantasy_position = Position.scrum_half)),
    out_half := starting_players.find? (fun z => decide (z.fantasy_position = Position.out_half)),
    centres := starting_players.filter (fun z => decide (z.fantasy_position = Position.centre)),
    back_3 := starting_players.filter (fun z => decide (z.fantasy_position = Position.back_3)) }

/-- All players of a starting XV, flattened in slot order. -/
def xvPlayers (xv : StartingXV) : List PlayerSummary :=
  xv.props ++ xv.hooker.toList ++ xv.second_row ++ xv.back_row ++
    xv.scrum_half.toList ++ xv.out_half.toList ++ xv.centres ++ xv.back_3

/-- The empty-slot list computed from a starting XV (source lines 198-214). -/
def emptySlotsOf (xv : StartingXV) : List Position :=
  (if xv.props.length < 2 then [Position.prop] else []) ++
  (if xv.hooker.isNone then [Position.hooker] else []) ++
  (if xv.second_row.length < 2 then [Position.second_row] else []) ++
  (if xv.back_row.length < 3 then [Position.back_row] else []) ++
  (if xv.scrum_half.isNone then [Position.scrum_half] else []) ++
  (if xv.out_half.isNone then [Position.out_half] else []) ++
  (if xv.centres.length < 2 then [Position.centre] else []) ++
  (if xv.back_3.length < 3 then [Position.back_3] else [])

/-- The all-empty fail-soft team (source lines 56-65 and 137-146). -/
def emptyTeam (budget : ℚ) : OptimisedTeam :=
  { starting_xv := { props := [], hooker := none, second_row := [], back_row := [],
                     scrum_half := none, out_half := none, centres := [], back_3 := [] },
    bench := [],
    captain := none,
    super_sub := none,
    total_cost := 0,
    total_predicted_points := 0,
    remaining_budget := budget,
    empty_slots := positionList }

/-- Solution extraction and output assembly (source lines 148-225), given the
pool summaries and the solver's 0/1 assignment. -/
def buildTeam (ss : List PlayerSummary) (a : Assignment) (budget : ℚ) : OptimisedTeam :=
  let starting_players := ss.filter (fun z => a.x z.id)
  let bench_players := ss.filter (fun z => a.b z.id)
  let captain_player := lastWhere (fun z => a.c z.id) ss
  let super_sub_player := lastWhere (fun z => a.s z.id) ss
  let starting_xv := buildStartingXV starting_players
  let total_cost := ((starting_players ++ bench_players).map (fun z => z.price.getD 0)).sum
  let base_points := (starting_players.map (fun z => z.predicted_points.getD 0)).sum
  let bench_points := (bench_players.map (fun z => z.predicted_points.getD 0 * 0.5)).sum
  -- predicted_points of every summary built by toSummary is present, so
  -- getD 0 agrees with the source's direct attribute access for the captain
  let captain_bonus : ℚ :=
    match captain_player with
    | some cp => cp.predicted_points.getD 0
    | none => 0
  let super_sub_bonus : ℚ :=
    match super_sub_player with
    | some sp2 => sp2.predicted_points.getD 0 * 2.5
    | none => 0
  { starting_xv := starting_xv,
    bench := bench_players,
    captain := captain_player,
    super_sub := super_sub_player,
    total_cost := total_cost,
    total_predicted_points := base_points + bench_points + captain_bonus + super_sub_bonus,
    remaining_budget := budget - total_cost,
    empty_slots := emptySlotsOf starting_xv }

/-- The function `optimise_team` of `app/services/optimiser.py`.  The
`outcome` argument stands for the external `prob.solve()` call: the
`LpStatus[prob.status] != "Optimal"` test selects the `failed` branch.  The
`error` result models the `ValueError` raised during solution extraction
when a pool player carries an unknown country or position string. -/
def optimise_team (players : List OptimiserPlayer) (budget : ℚ) (max_per_country : Int)
    (locked_players excluded_players : List Int) (include_bench : Bool)
    (outcome : SolverOutcome) : Except Unit OptimisedTeam :=
  let available_players := availablePlayers players excluded_players
  if available_players.isEmpty then .ok (emptyTeam budget)
  else
    match outcome with
    | .failed => .ok (emptyTeam budget)
    | .optimal a =>
        match toSummaries available_players with
        | none => .error ()
        | some ss => .ok (buildTeam ss a budget)

/-- Dataclass `PlayerStats` from `app/services/scoring.py`. -/
structure PlayerStats where
  tries : Int := 0
  try_assists : Int := 0
  conversions : Int := 0
  penalties_kicked : Int := 0
  drop_goals : Int := 0
  defenders_beaten : Int := 0
  metres_carried : Int := 0
  offloads : Int := 0
  fifty_22_kicks : Int := 0
  scrums_won : Int := 0
  tackles_made : Int := 0
  turnovers_won : Int := 0
  lineout_steals : Int := 0
  player_of_match : Bool := false
  penalties_conceded : Int := 0
  yellow_cards : Int := 0
  red_cards : Int := 0
  is_forward : Bool := false
deriving DecidableEq

/-- The function `calculate_fantasy_points` of `app/services/scoring.py`,
restricted to `PlayerStats` inputs (the `dict` branch merely rebuilds a
`PlayerStats`).  The Python float accumulator stays exact on integers, so it
is modelled as a rational; `//` is Python floor division. -/
def calculate_fantasy_points (stats : PlayerStats) : ℚ :=
  let points : ℚ := 0
  let points := points +
    (if stats.is_forward then (stats.tries : ℚ) * 15 else (stats.tries : ℚ) * 10)
  let points := points + (stats.try_assists : ℚ) * 4
  let points := points + (stats.conversions : ℚ) * 2
  let points := points + (stats.penalties_kicked : ℚ) * 3
  let points := points + (stats.drop_goals : ℚ) * 5
  let points := points + (stats.defenders_beaten : ℚ) * 2
  let points := points + ((stats.metres_carried.fdiv 10 : Int) : ℚ)
  let points := points + (stats.offloads : ℚ) * 2
  let points := points + (stats.fifty_22_kicks : ℚ) * 7
  let points := points + (if stats.is_forward then (stats.scrums_won : ℚ) * 1 else 0)
  let points := points + (stats.tackles_made : ℚ) * 1
  let points := points + (stats.turnovers_won : ℚ) * 5
  let points := points + (stats.lineout_steals : ℚ) * 7
  let points := points + (if stats.player_of_match then 15 else 0)
  let points := points - (stats.penalties_conceded : ℚ) * 1
  let points := points - (stats.yellow_cards : ℚ) * 5
  let points := points - (stats.red_cards : ℚ) * 8
  points

/-- The fixed linear weighting of claim C4, written as the spec states it: a
single integer-valued linear combination of the stat line. -/
def scoringSpecFormula (stats : PlayerStats) : ℚ :=
  (((if stats.is_forward then 15 * stats.tries else 10 * stats.tries)
    + 4 * stats.try_assists
    + 2 * stats.conversions
    + 3 * stats.penalties_kicked
    + 5 * stats.drop_goals
    + 2 * stats.defenders_beaten
    + stats.metres_carried.fdiv 10
    + 2 * stats.offloads
    + 7 * stats.fifty_22_kicks
    + (if stats.is_forward then stats.scrums_won else 0)
    + stats.tackles_made
    + 5 * stats.turnovers_won
    + 7 * stats.lineout_steals
    + (if stats.player_of_match then 15 else 0)
    - stats.penalties_conceded
    - 5 * stats.yellow_cards
    - 8 * stats.red_cards : Int) : ℚ)

/-- Dataclass `PlayerFeatures` from `app/services/predictor.py`. -/
structure PlayerFeatures where
  tries_last_3 : ℚ := 0
  tries_last_5 : ℚ := 0
  tackles_last_3 : ℚ := 0
  tackles_last_5 : ℚ := 0
  metres_last_3 : ℚ := 0
  metres_last_5 : ℚ := 0
  turnovers_last_3 : ℚ := 0
  fantasy_points_last_3 : ℚ := 0
  fantasy_points_last_5 : ℚ := 0
  is_kicker : Bool := false
  is_forward : Bool := false
  is_home : Bool := true
  is_starting : Bool := true
  anytime_try_odds : Option ℚ := none
deriving DecidableEq

/-- The dict returned by `Predictor.predict` / `Predictor._heuristic_predict`. -/
structure Prediction where
  predicted_points : ℚ
  confidence_lower : ℚ
  confidence_upper : ℚ
deriving DecidableEq

/-- Python round(v, 2): round to two decimal places. -/
def round2 (q : ℚ) : ℚ := (round (q * 100) : ℚ) / 100

/-- The class `Predictor` of `app/services/predictor.py`; the loaded joblib
model, when present, is an opaque regression from the feature vector to a
point estimate. -/
structure Predictor where
  model : Option (PlayerFeatures → ℚ)

namespace Predictor

/-- Method `Predictor._heuristic_predict` (source lines 100-140). -/
def heuristic_predict (features : PlayerFeatures) : Prediction :=
  let base_points := features.fantasy_points_last_3 * 0.6 + features.fantasy_points_last_5 * 0.4
  let base_points := if base_points = 0 then (if features.is_forward then 12.0 else 15.0)
    else base_points
  let base_points := if features.is_kicker then base_points + 3.0 else base_points
  let base_points := if !features.is_starting then base_points * 0.4 else base_points
  let base_points := if !features.is_home then base_points * 0.95 else base_points
  -- Python: if features.anytime_try_odds and features.anytime_try_odds > 0
  let base_points :=
    match features.anytime_try_odds with
    | some odds =>
        if odds ≠ 0 ∧ odds > 0 then
          base_points + (1.0 / odds) * (if features.is_forward then 15 else 10) * 0.3
        else base_points
    | none => base_points
  let std_estimate := max 3.0 (base_points * 0.2)
  { predicted_points := round2 base_points,
    confidence_lower := round2 (base_points - 1.645 * std_estimate),
    confidence_upper := round2 (base_points + 1.645 * std_estimate) }

/-- Method `Predictor.predict` (source lines 77-98). -/
def predict (self : Predictor) (features : PlayerFeatures) : Prediction :=
  match self.model with
  | none => heuristic_predict features
  | some m =>
      let prediction := m features
      let std_estimate := max 3.0 (prediction * 0.2)
      { predicted_points := prediction,
        confidence_lower := prediction - 1.645 * std_estimate,
        confidence_upper := prediction + 1.645 * std_estimate }

end Predictor

/-- The heuristic formula exactly as claim C5 words it: the 60/40 blend is
replaced by the positional default when no history exists, i.e. when both
rolling fantasy-points averages are zero. -/
def claimC5Predict (features : PlayerFeatures) : Prediction :=
  let blend := features.fantasy_points_last_3 * 0.6 + features.fantasy_points_last_5 * 0.4
  let base := if features.fantasy_points_last_3 = 0 ∧ features.fantasy_points_last_5 = 0 then
      (if features.is_forward then 12.0 else 15.0)
    else blend
  let tryContribution : ℚ :=
    match features.anytime_try_odds with
    | some odds => if 0 < odds then (1 / odds) * (if features.is_forward then 15 else 10) * 0.3
      else 0
    | none => 0
  let value := (base + (if features.is_kicker then 3.0 else 0))
      * (if features.is_starting then 1 else 0.4)
      * (if features.is_home then 1 else 0.95)
    + tryContribution
  let std := max 3.0 (0.2 * value)
  { predicted_points := round2 value,
    confidence_lower := round2 (value - 1.645 * std),
    confidence_upper := round2 (value + 1.645 * std) }

/-- The heuristic formula of claim C5 amended as the code forces: the
positional default replaces the blend whenever the blend itself is zero (in
particular, but not only, when no history exists). -/
def claimC5AmendedPredict (features : PlayerFeatures) : Prediction :=
  let blend := features.fantasy_points_last_3 * 0.6 + features.fantasy_points_last_5 * 0.4
  let base := if blend = 0 then (if features.is_forward then 12.0 else 15.0) else blend
  let tryContribution : ℚ :=
    match features.anytime_try_odds with
    | some odds => if 0 < odds then (1 / odds) * (if features.is_forward then 15 else 10) * 0.3
      else 0
    | none => 0
  let value := (base + (if features.is_kicker then 3.0 else 0))
      * (if features.is_starting then 1 else 0.4)
      * (if features.is_home then 1 else 0.95)
    + tryContribution
  let std := max 3.0 (0.2 * value)
  { predicted_points := round2 value,
    confidence_lower := round2 (value - 1.645 * std),
    confidence_upper := round2 (value + 1.645 * std) }

def posBuckets (sp : List PlayerSummary) : List PlayerSummary :=
  positionList.flatMap (fun k => sp.filter (fun z => decide (z.fantasy_position = k)))

/-- A concrete two-player roster used to exercise the optimiser theorems on
the successful solver path. -/
def wP1 : OptimiserPlayer :=
  { id := 1, name := "A", country := "Ireland", fantasy_position := "hooker",
    price := 10, predicted_points := 5 }

/-- Second concrete roster entry. -/
def wP2 : OptimiserPlayer :=
  { id := 2, name := "B", country := "England", fantasy_position := "prop",
    price := 10, predicted_points := 4 }

/-- A concrete solver assignment: player 1 starts and is captain, player 2 is
on the bench and is the super-sub. -/
def wAssign : Assignment :=
  { x := fun i => i == 1, b := fun i => i == 2, c := fun i => i == 1, s := fun i => i == 2 }

/-- Summary of wP1. -/
def wZ1 : PlayerSummary :=
  { id := 1, name := "A", country := .ireland, fantasy_position := .hooker,
    price := some 10, is_available := true, is_starting := none, predicted_points := some 5 }

/-- Summary of wP2. -/
def wZ2 : PlayerSummary :=
  { id := 2, name := "B", country := .england, fantasy_position := .prop,
    price := some 10, is_available := true, is_starting := none, predicted_points := some 4 }

/-- A locked, available player that no budget-0 solution can select. -/
def wLockP : OptimiserPlayer :=
  { id := 1, name := "L", country := "Ireland", fantasy_position := "hooker",
    price := 10, predicted_points := 5 }

/-- The feature vector on which claim C5 and the code disagree: the 60/40
blend is zero even though history exists. -/
def cexFeatures : PlayerFeatures :=
  { fantasy_points_last_3 := 10, fantasy_points_last_5 := -15 }

theorem country_fromString_value {s : String} {c : Country} (h : Country.fromString s = some c) :
    c.value = s := by
  unfold Country.fromString at h
  split_ifs at h <;>
    first
      | (injection h with h2; subst h2; simp_all [Country.value])
      | exact Option.noConfusion h

theorem position_fromString_value {s : String} {k : Position} (h : Position.fromString s = some k) :
    k.value = s := by
  unfold Position.fromString at h
  split_ifs at h <;>
    first
      | (injection h with h2; subst h2; simp_all [Position.value])
      | exact Option.noConfusion h

theorem position_value_inj {k1 k2 : Position} (h : k1.value = k2.value) : k1 = k2 := by
  cases k1 <;> cases k2 <;> simp_all [Position.value]

theorem country_value_inj {c1 c2 : Country} (h : c1.value = c2.value) : c1 = c2 := by
  cases c1 <;> cases c2 <;> simp_all [Country.value]

theorem toSummary_spec {p : OptimiserPlayer} {z : PlayerSummary} (h : toSummary p = some z) :
    z.id = p.id ∧ z.price = some p.price ∧ z.predicted_points = some p.predicted_points ∧
    z.country.value = p.country ∧ z.fantasy_position.value = p.fantasy_position := by
  unfold toSummary at h
  cases hc : Country.fromString p.country with
  | none => rw [hc] at h; simp at h
  | some c =>
    cases hk : Position.fromString p.fantasy_position with
    | none => rw [hc, hk] at h; simp at h
    | some k =>
      rw [hc, hk] at h
      simp only [Option.some.injEq] at h
      subst h
      exact ⟨rfl, rfl, rfl, country_fromString_value hc, position_fromString_value hk⟩

theorem toSummaries_forall₂ : ∀ {l : List OptimiserPlayer} {ss : List PlayerSummary},
    toSummaries l = some ss → List.Forall₂ (fun p z => toSummary p = some z) l ss := by
  intro l
  induction l with
  | nil =>
    intro ss h
    simp only [toSummaries, Option.some.injEq] at h
    subst h
    exact List.Forall₂.nil
  | cons p rest ih =>
    intro ss h
    unfold toSummaries at h
    cases hz : toSummary p with
    | none => rw [hz] at h; simp at h
    | some z =>
      cases hrest : toSummaries rest with
      | none => rw [hz, hrest] at h; simp at h
      | some zs =>
        rw [hz, hrest] at h
        simp only [Option.some.injEq] at h
        subst h
        exact List.Forall₂.cons hz (ih hrest)

theorem forall₂_map_eq {β : Type} {F : PlayerSummary → β} {G : OptimiserPlayer → β}
    {l : List OptimiserPlayer} {ss : List PlayerSummary}
    (h : List.Forall₂ (fun p z => toSummary p = some z) l ss)
    (hFG : ∀ p z, toSummary p = some z → F z = G p) : ss.map F = l.map G := by
  induction h with
  | nil => rfl
  | cons hpz _ ih => simp only [List.map_cons, ih, hFG _ _ hpz]

theorem forall₂_countP_eq {f : PlayerSummary → Bool} {g : OptimiserPlayer → Bool}
    {l : List OptimiserPlayer} {ss : List PlayerSummary}
    (h : List.Forall₂ (fun p z => toSummary p = some z) l ss)
    (hfg : ∀ p z, toSummary p = some z → f z = g p) : ss.countP f = l.countP g := by
  induction h with
  | nil => rfl
  | cons hpz _ ih => simp only [List.countP_cons, ih, hfg _ _ hpz]

theorem forall₂_mem_right {l : List OptimiserPlayer} {ss : List PlayerSummary}
    (h : List.Forall₂ (fun p z => toSummary p = some z) l ss) {z : PlayerSummary}
    (hz : z ∈ ss) : ∃ p ∈ l, toSummary p = some z := by
  induction h with
  | nil => cases hz
  | cons hpz _ ih =>
    rcases List.mem_cons.mp hz with rfl | hz2
    · exact ⟨_, List.mem_cons_self _ _, hpz⟩
    · obtain ⟨p, hp, hps⟩ := ih hz2
      exact ⟨p, List.mem_cons_of_mem _ hp, hps⟩

theorem forall₂_mem_left {l : List OptimiserPlayer} {ss : List PlayerSummary}
    (h : List.Forall₂ (fun p z => toSummary p = some z) l ss) {p : OptimiserPlayer}
    (hp : p ∈ l) : ∃ z ∈ ss, toSummary p = some z := by
  induction h with
  | nil => cases hp
  | cons hpz _ ih =>
    rcases List.mem_cons.mp hp with rfl | hp2
    · exact ⟨_, List.mem_cons_self _ _, hpz⟩
    · obtain ⟨z, hz, hzs⟩ := ih hp2
      exact ⟨z, List.mem_cons_of_mem _ hz, hzs⟩

theorem sum_filter_map (l : List PlayerSummary) (f : PlayerSummary → Bool)
    (F : PlayerSummary → ℚ) :
    ((l.filter f).map F).sum = (l.map fun z => if f z then F z else 0).sum := by
  induction l with
  | nil => rfl
  | cons z l ih => cases hz : f z <;> simp [List.filter_cons, hz, ih]

theorem sum_map_add {α : Type} (l : List α) (F G : α → ℚ) :
    (l.map fun z => F z + G z).sum = (l.map F).sum + (l.map G).sum := by
  induction l with
  | nil => simp
  | cons z l ih =>
    simp only [List.map_cons, List.sum_cons, ih]
    ring

theorem sum_condNat {α : Type} (l : List α) (f : α → Bool) :
    (l.map fun p => condNat (f p)).sum = l.countP f := by
  induction l with
  | nil => rfl
  | cons z l ih =>
    simp only [List.map_cons, List.sum_cons, List.countP_cons, ih]
    cases hz : f z <;> simp [condNat, hz] <;> omega

theorem lastWhere_aux (f : PlayerSummary → Bool) (z : PlayerSummary) :
    ∀ (l : List PlayerSummary) (acc : Option PlayerSummary),
      l.foldl (fun acc w => if f w then some w else acc) acc = some z →
      (z ∈ l ∧ f z = true) ∨ acc = some z := by
  intro l
  induction l with
  | nil => intro acc h; exact Or.inr h
  | cons w l ih =>
    intro acc h
    rw [List.foldl_cons] at h
    rcases ih _ h with ⟨hm, hf⟩ | hacc
    · exact Or.inl ⟨List.mem_cons_of_mem _ hm, hf⟩
    · by_cases hw : f w = true
      · rw [if_pos hw] at hacc
        injection hacc with h2
        subst h2
        exact Or.inl ⟨List.mem_cons_self _ _, hw⟩
      · rw [if_neg hw] at hacc
        exact Or.inr hacc

theorem lastWhere_eq_some {f : PlayerSummary → Bool} {l : List PlayerSummary}
    {z : PlayerSummary} (h : lastWhere f l = some z) : z ∈ l ∧ f z = true := by
  rcases lastWhere_aux f z l none h with hgood | hbad
  · exact hgood
  · cases hbad

theorem lastWhere_none_aux (f : PlayerSummary → Bool) :
    ∀ (l : List PlayerSummary) (acc : Option PlayerSummary),
      l.foldl (fun acc w => if f w then some w else acc) acc = none →
      (∀ w ∈ l, f w = false) ∧ acc = none := by
  intro l
  induction l with
  | nil => intro acc h; exact ⟨by simp, h⟩
  | cons w l ih =>
    intro acc h
    rw [List.foldl_cons] at h
    obtain ⟨hall, hstep⟩ := ih _ h
    by_cases hw : f w = true
    · rw [if_pos hw] at hstep; cases hstep
    · rw [if_neg hw] at hstep
      refine ⟨?_, hstep⟩
      intro v hv
      rcases List.mem_cons.mp hv with rfl | hv2
      · exact Bool.eq_false_iff.mpr hw
      · exact hall v hv2

theorem lastWhere_ne_none {f : PlayerSummary → Bool} {l : List PlayerSummary}
    {z : PlayerSummary} (hz : z ∈ l) (hf : f z = true) : lastWhere f l ≠ none := by
  intro h
  have := (lastWhere_none_aux f l none h).1 z hz
  rw [hf] at this
  cases this

theorem find?_toList_of_short (f : PlayerSummary → Bool) (l : List PlayerSummary)
    (h : (l.filter f).length ≤ 1) : (l.find? f).toList = l.filter f := by
  induction l with
  | nil => rfl
  | cons z l ih =>
    cases hz : f z with
    | false =>
      rw [List.find?_cons_of_neg _ (by simp [hz]), List.filter_cons_of_neg (by simp [hz])]
      rw [List.filter_cons_of_neg (by simp [hz])] at h
      exact ih h
    | true =>
      rw [List.find?_cons_of_pos _ hz, List.filter_cons_of_pos hz]
      rw [List.filter_cons_of_pos hz] at h
      have h0 : l.filter f = [] := by
        have h1 := Nat.le_of_succ_le_succ h
        exact List.length_eq_zero.mp (Nat.le_zero.mp h1)
      simp [h0]

theorem buckets_cons_zero (x : PlayerSummary) (sp : List PlayerSummary) :
    ∀ ks : List Position, ks.countP (fun k => decide (k = x.fantasy_position)) = 0 →
      (ks.flatMap fun k => (x :: sp).filter fun z => decide (z.fantasy_position = k)) =
      ks.flatMap fun k => sp.filter fun z => decide (z.fantasy_position = k) := by
  intro ks
  induction ks with
  | nil => simp
  | cons k ks ih =>
    intro h
    rw [List.countP_cons] at h
    generalize hN : ks.countP (fun k => decide (k = x.fantasy_position)) = N at h
    by_cases hk : k = x.fantasy_position
    · simp [hk] at h
    · have hrest : ks.countP (fun k => decide (k = x.fantasy_position)) = 0 := by
        rw [hN]
        simp [hk] at h
        omega
      rw [List.flatMap_cons, List.flatMap_cons, ih hrest,
        List.filter_cons_of_neg (by simpa using fun he => hk he.symm)]

theorem buckets_cons_one (x : PlayerSummary) (sp : List PlayerSummary) :
    ∀ ks : List Position, ks.countP (fun k => decide (k = x.fantasy_position)) = 1 →
      List.Perm (ks.flatMap fun k => (x :: sp).filter fun z => decide (z.fantasy_position = k))
        (x :: ks.flatMap fun k => sp.filter fun z => decide (z.fantasy_position = k)) := by
  intro ks
  induction ks with
  | nil => intro h; simp at h
  | cons k ks ih =>
    intro h
    rw [List.countP_cons] at h
    generalize hN : ks.countP (fun k => decide (k = x.fantasy_position)) = N at h
    by_cases hk : k = x.fantasy_position
    · have hrest : ks.countP (fun k => decide (k = x.fantasy_position)) = 0 := by
        rw [hN]
        simp [hk] at h
        omega
      rw [List.flatMap_cons, List.flatMap_cons,
        List.filter_cons_of_pos (by simp [hk]),
        buckets_cons_zero x sp ks hrest]
      exact List.Perm.refl _
    · have hrest : ks.countP (fun k => decide (k = x.fantasy_position)) = 1 := by
        rw [hN]
        simp [hk] at h
        omega
      rw [List.flatMap_cons, List.flatMap_cons,
        List.filter_cons_of_neg (by simpa using fun he => hk he.symm)]
      exact ((List.Perm.append_left _ (ih hrest)).trans List.perm_middle)

theorem posBuckets_perm (sp : List PlayerSummary) : List.Perm (posBuckets sp) sp := by
  induction sp with
  | nil => simp [posBuckets]
  | cons x sp ih =>
    have h1 : positionList.countP (fun k => decide (k = x.fantasy_position)) = 1 := by
      cases x.fantasy_position <;> rfl
    exact (buckets_cons_one x sp positionList h1).trans (List.Perm.cons x ih)

theorem xvPlayers_perm (sp : List PlayerSummary)
    (hh : (sp.filter fun z => decide (z.fantasy_position = Position.hooker)).length ≤ 1)
    (hsh : (sp.filter fun z => decide (z.fantasy_position = Position.scrum_half)).length ≤ 1)
    (hoh : (sp.filter fun z => decide (z.fantasy_position = Position.out_half)).length ≤ 1) :
    List.Perm (xvPlayers (buildStartingXV sp)) sp := by
  have e1 := find?_toList_of_short _ sp hh
  have e2 := find?_toList_of_short _ sp hsh
  have e3 := find?_toList_of_short _ sp hoh
  have heq : xvPlayers (buildStartingXV sp) = posBuckets sp := by
    simp only [xvPlayers, buildStartingXV, e1, e2, e3, posBuckets, positionList,
      List.flatMap_cons, List.flatMap_nil, List.append_nil, List.append_assoc]
  rw [heq]
  exact posBuckets_perm sp

theorem summary_match_pos {p : OptimiserPlayer} {z : PlayerSummary}
    (h : toSummary p = some z) (k : Position) :
    decide (z.fantasy_position = k) = decide (p.fantasy_position = k.value) := by
  obtain ⟨_, _, _, _, hpos⟩ := toSummary_spec h
  refine decide_eq_decide.mpr ⟨fun he => ?_, fun he => ?_⟩
  · rw [← hpos, he]
  · exact position_value_inj (by rw [hpos, he])

theorem summary_match_country {p : OptimiserPlayer} {z : PlayerSummary}
    (h : toSummary p = some z) (c : Country) :
    decide (z.country = c) = decide (p.country = c.value) := by
  obtain ⟨_, _, _, hcty, _⟩ := toSummary_spec h
  refine decide_eq_decide.mpr ⟨fun he => ?_, fun he => ?_⟩
  · rw [← hcty, he]
  · exact country_value_inj (by rw [hcty, he])

theorem buildTeam_bench (ss : List PlayerSummary) (a : Assignment) (budget : ℚ) :
    (buildTeam ss a budget).bench = ss.filter (fun z => a.b z.id) := rfl

theorem buildTeam_captain (ss : List PlayerSummary) (a : Assignment) (budget : ℚ) :
    (buildTeam ss a budget).captain = lastWhere (fun z => a.c z.id) ss := rfl

theorem buildTeam_super_sub (ss : List PlayerSummary) (a : Assignment) (budget : ℚ) :
    (buildTeam ss a budget).super_sub = lastWhere (fun z => a.s z.id) ss := rfl

theorem buildTeam_starting_xv (ss : List PlayerSummary) (a : Assignment) (budget : ℚ) :
    (buildTeam ss a budget).starting_xv = buildStartingXV (ss.filter (fun z => a.x z.id)) := rfl

theorem buildTeam_total_cost_def (ss : List PlayerSummary) (a : Assignment) (budget : ℚ) :
    (buildTeam ss a budget).total_cost =
      ((ss.filter (fun z => a.x z.id) ++ ss.filter (fun z => a.b z.id)).map
        (fun z => z.price.getD 0)).sum := rfl

theorem buildTeam_remaining (ss : List PlayerSummary) (a : Assignment) (budget : ℚ) :
    (buildTeam ss a budget).remaining_budget = budget - (buildTeam ss a budget).total_cost := rfl

theorem buildTeam_cost_eq {pool : List OptimiserPlayer} {ss : List PlayerSummary}
    (hss : toSummaries pool = some ss) (a : Assignment) (budget : ℚ) :
    (buildTeam ss a budget).total_cost =
      (pool.map (fun p => p.price * (boolQ (a.x p.id) + boolQ (a.b p.id)))).sum := by
  have h2 := toSummaries_forall₂ hss
  rw [buildTeam_total_cost_def, List.map_append, List.sum_append,
    sum_filter_map, sum_filter_map]
  rw [forall₂_map_eq (G := fun p => if a.x p.id then p.price else 0) h2
      (fun p z hz => by
        obtain ⟨hid, hpr, _, _, _⟩ := toSummary_spec hz
        rw [hid, hpr]
        rfl),
    forall₂_map_eq (G := fun p => if a.b p.id then p.price else 0) h2
      (fun p z hz => by
        obtain ⟨hid, hpr, _, _, _⟩ := toSummary_spec hz
        rw [hid, hpr]
        rfl),
    ← sum_map_add]
  refine congrArg List.sum (List.map_congr_left fun p _ => ?_)
  cases hx : a.x p.id <;> cases hb : a.b p.id <;> simp [boolQ] <;> ring

theorem starting_filter_len {pool : List OptimiserPlayer} {ss : List PlayerSummary}
    (hss : toSummaries pool = some ss) (a : Assignment) (k : Position) :
    ((ss.filter fun z => a.x z.id).filter fun z => decide (z.fantasy_position = k)).length
      = (pool.filter fun p => decide (p.fantasy_position = k.value)).countP
          (fun p => a.x p.id) := by
  rw [← List.countP_eq_length_filter, List.countP_filter, List.countP_filter]
  exact forall₂_countP_eq (toSummaries_forall₂ hss) (fun p z hz => by
    obtain ⟨hid, _, _, _, _⟩ := toSummary_spec hz
    rw [hid, summary_match_pos hz k, Bool.and_comm])

theorem starting_singleton_len {pool : List OptimiserPlayer} {ss : List PlayerSummary}
    {a : Assignment}
    (hss : toSummaries pool = some ss)
    (hpos : ∀ pl ∈ POSITION_LIMITS,
      pool.filter (fun p => decide (p.fantasy_position = pl.1.value)) ≠ [] →
      (pool.filter (fun p => decide (p.fantasy_position = pl.1.value))).countP
        (fun p => a.x p.id) ≤ pl.2)
    {k : Position} {n : Nat} (hk : (k, n) ∈ POSITION_LIMITS) :
    ((ss.filter fun z => a.x z.id).filter fun z => decide (z.fantasy_position = k)).length
      ≤ n := by
  rw [starting_filter_len hss a k]
  by_cases hne : pool.filter (fun p => decide (p.fantasy_position = k.value)) = []
  · rw [hne]
    simp
  · exact hpos (k, n) hk hne

theorem optimise_team_ok_cases {players : List OptimiserPlayer} {budget : ℚ}
    {max_per_country : Int} {locked_players excluded_players : List Int} {include_bench : Bool}
    {outcome : SolverOutcome} {t : OptimisedTeam}
    (h : optimise_team players budget max_per_country locked_players excluded_players
      include_bench outcome = .ok t) :
    (t = emptyTeam budget ∧
      (availablePlayers players excluded_players = [] ∨ outcome = SolverOutcome.failed))
    ∨ ∃ a ss, outcome = SolverOutcome.optimal a ∧
        toSummaries (availablePlayers players excluded_players) = some ss ∧
        availablePlayers players excluded_players ≠ [] ∧ t = buildTeam ss a budget := by
  unfold optimise_team at h
  by_cases hpool : (availablePlayers players excluded_players).isEmpty = true
  · rw [if_pos hpool] at h
    exact Or.inl ⟨(Except.ok.inj h).symm, Or.inl (List.isEmpty_iff.mp hpool)⟩
  · rw [if_neg hpool] at h
    cases outcome with
    | failed => exact Or.inl ⟨(Except.ok.inj h).symm, Or.inr rfl⟩
    | optimal a =>
      cases hss : toSummaries (availablePlayers players excluded_players) with
      | none =>
        rw [hss] at h
        exact Except.noConfusion h
      | some ss =>
        rw [hss] at h
        exact Or.inr ⟨a, ss, rfl, rfl, fun hnil => hpool (by simp [hnil]),
          (Except.ok.inj h).symm⟩

theorem wSummaries_eq : toSummaries (availablePlayers [wP1, wP2] []) = some [wZ1, wZ2] := rfl

theorem wTeam_eq : optimise_team [wP1, wP2] 230 4 [1] [] true (.optimal wAssign) =
    .ok (buildTeam [wZ1, wZ2] wAssign 230) := rfl

theorem wSatisfies : satisfiesConstraints (availablePlayers [wP1, wP2] []) 230 4 [1] true wAssign := by
  refine ⟨?_, ?_, ?_, ?_, ?_, ?_, ?_, ?_, ?_⟩ <;>
    simp [availablePlayers, POSITION_LIMITS, countryList, wP1, wP2, wAssign,
      boolQ, condNat, Country.value, Position.value] <;> norm_num

/-- Claim C1 as stated is false: with a negative budget and an empty roster
the fail-soft team has total_cost 0, which exceeds the budget -1. -/
theorem C1_counterexample :
    optimise_team [] (-1) 4 [] [] true SolverOutcome.failed = .ok (emptyTeam (-1)) ∧
    ¬((emptyTeam (-1)).total_cost ≤ -1) := by
  refine ⟨rfl, ?_⟩
  norm_num [emptyTeam]

/-- Claim C1 amended: for every call with a non-negative budget, assuming the
solver is sound (an optimal outcome satisfies the posted constraints), the
returned team costs at most the budget; this covers the fail-soft outputs. -/
theorem C1_total_cost_le_budget (players : List OptimiserPlayer) (budget : ℚ)
    (max_per_country : Int) (locked_players excluded_players : List Int) (include_bench : Bool)
    (outcome : SolverOutcome) (t : OptimisedTeam)
    (hb : 0 ≤ budget)
    (hsol : ∀ a, outcome = SolverOutcome.optimal a →
      satisfiesConstraints (availablePlayers players excluded_players) budget max_per_country
        locked_players include_bench a)
    (hres : optimise_team players budget max_per_country locked_players excluded_players
      include_bench outcome = .ok t) :
    t.total_cost ≤ budget := by
  rcases optimise_team_ok_cases hres with ⟨ht, _⟩ | ⟨a, ss, houtcome, hss, _, ht⟩
  · rw [ht]
    exact hb
  · rw [ht, buildTeam_cost_eq hss a budget]
    exact (hsol a houtcome).1

/-- Witness for C1 at a concrete successful optimisation. -/
theorem C1_witness : (buildTeam [wZ1, wZ2] wAssign 230).total_cost ≤ 230 :=
  C1_total_cost_le_budget [wP1, wP2] 230 4 [1] [] true (.optimal wAssign) _
    (by norm_num)
    (fun a h => by injection h with h2; rw [← h2]; exact wSatisfies)
    wTeam_eq

/-- Claim C2: an empty candidate pool or a non-optimal solver status yields,
without raising, the all-empty team with zero totals, full budget remaining
and all eight positions listed as empty slots. -/
theorem C2_fail_soft (players : List OptimiserPlayer) (budget : ℚ)
    (max_per_country : Int) (locked_players excluded_players : List Int) (include_bench : Bool)
    (outcome : SolverOutcome)
    (h : availablePlayers players excluded_players = [] ∨ outcome = SolverOutcome.failed) :
    optimise_team players budget max_per_country locked_players excluded_players
      include_bench outcome =
    .ok { starting_xv := { props := [], hooker := none, second_row := [], back_row := [],
                           scrum_half := none, out_half := none, centres := [], back_3 := [] },
          bench := [],
          captain := none,
          super_sub := none,
          total_cost := 0,
          total_predicted_points := 0,
          remaining_budget := budget,
          empty_slots := positionList } := by
  rcases h with hempty | hfail
  · simp only [optimise_team, hempty, List.isEmpty_nil, if_true]
    rfl
  · subst hfail
    by_cases hp : (availablePlayers players excluded_players).isEmpty = true
    · simp only [optimise_team, hp, if_true]
      rfl
    · simp only [optimise_team, hp, if_false]
      rfl

/-- Witness for C2 at the empty roster. -/
theorem C2_witness :
    availablePlayers [] [] = ([] : List OptimiserPlayer) ∧
    optimise_team [] 230 4 [] [] true SolverOutcome.failed =
    .ok { starting_xv := { props := [], hooker := none, second_row := [], back_row := [],
                           scrum_half := none, out_half := none, centres := [], back_3 := [] },
          bench := [],
          captain := none,
          super_sub := none,
          total_cost := 0,
          total_predicted_points := 0,
          remaining_budget := 230,
          empty_slots := positionList } :=
  ⟨rfl, C2_fail_soft [] 230 4 [] [] true SolverOutcome.failed (Or.inl rfl)⟩

/-- Claim C9: on every returned team, successful or fail-soft, the remaining
budget equals the budget argument minus the total cost. -/
theorem C9_remaining_budget (players : List OptimiserPlayer) (budget : ℚ)
    (max_per_country : Int) (locked_players excluded_players : List Int) (include_bench : Bool)
    (outcome : SolverOutcome) (t : OptimisedTeam)
    (hres : optimise_team players budget max_per_country locked_players excluded_players
      include_bench outcome = .ok t) :
    t.remaining_budget = budget - t.total_cost := by
  rcases optimise_team_ok_cases hres with ⟨ht, _⟩ | ⟨a, ss, _, _, _, ht⟩
  · rw [ht]
    show budget = budget - 0
    rw [sub_zero]
  · rw [ht]
    exact buildTeam_remaining ss a budget

/-- Witness for C9 at a concrete successful optimisation. -/
theorem C9_witness : (buildTeam [wZ1, wZ2] wAssign 230).remaining_budget =
    230 - (buildTeam [wZ1, wZ2] wAssign 230).total_cost :=
  C9_remaining_budget [wP1, wP2] 230 4 [1] [] true (.optimal wAssign) _ wTeam_eq

theorem option_toList_length_le_one {α : Type} (o : Option α) : o.toList.length ≤ 1 := by
  cases o <;> simp

/-- Claim C7: assuming solver soundness, the starting XV of every returned
team respects the fixed per-position caps. -/
theorem C7_position_caps (players : List OptimiserPlayer) (budget : ℚ)
    (max_per_country : Int) (locked_players excluded_players : List Int) (include_bench : Bool)
    (outcome : SolverOutcome) (t : OptimisedTeam)
    (hsol : ∀ a, outcome = SolverOutcome.optimal a →
      satisfiesConstraints (availablePlayers players excluded_players) budget max_per_country
        locked_players include_bench a)
    (hres : optimise_team players budget max_per_country locked_players excluded_players
      include_bench outcome = .ok t) :
    t.starting_xv.props.length ≤ 2 ∧ t.starting_xv.hooker.toList.length ≤ 1 ∧
    t.starting_xv.second_row.length ≤ 2 ∧ t.starting_xv.back_row.length ≤ 3 ∧
    t.starting_xv.scrum_half.toList.length ≤ 1 ∧ t.starting_xv.out_half.toList.length ≤ 1 ∧
    t.starting_xv.centres.length ≤ 2 ∧ t.starting_xv.back_3.length ≤ 3 := by
  rcases optimise_team_ok_cases hres with ⟨ht, _⟩ | ⟨a, ss, houtcome, hss, _, ht⟩
  · subst ht
    refine ⟨?_, ?_, ?_, ?_, ?_, ?_, ?_, ?_⟩ <;> simp [emptyTeam]
  · subst ht
    obtain ⟨-, hpos, -⟩ := hsol a houtcome
    rw [buildTeam_starting_xv]
    refine ⟨?_, option_toList_length_le_one _, ?_, ?_, option_toList_length_le_one _,
      option_toList_length_le_one _, ?_, ?_⟩
    · exact starting_singleton_len hss hpos (by decide : (Position.prop, 2) ∈ POSITION_LIMITS)
    · exact starting_singleton_len hss hpos (by decide : (Position.second_row, 2) ∈ POSITION_LIMITS)
    · exact starting_singleton_len hss hpos (by decide : (Position.back_row, 3) ∈ POSITION_LIMITS)
    · exact starting_singleton_len hss hpos (by decide : (Position.centre, 2) ∈ POSITION_LIMITS)
    · exact starting_singleton_len hss hpos (by decide : (Position.back_3, 3) ∈ POSITION_LIMITS)

/-- Witness for C7 at a concrete successful optimisation. -/
theorem C7_witness : (buildTeam [wZ1, wZ2] wAssign 230).starting_xv.props.length ≤ 2 ∧
    (buildTeam [wZ1, wZ2] wAssign 230).starting_xv.hooker.toList.length ≤ 1 ∧
    (buildTeam [wZ1, wZ2] wAssign 230).starting_xv.second_row.length ≤ 2 ∧
    (buildTeam [wZ1, wZ2] wAssign 230).starting_xv.back_row.length ≤ 3 ∧
    (buildTeam [wZ1, wZ2] wAssign 230).starting_xv.scrum_half.toList.length ≤ 1 ∧
    (buildTeam [wZ1, wZ2] wAssign 230).starting_xv.out_half.toList.length ≤ 1 ∧
    (buildTeam [wZ1, wZ2] wAssign 230).starting_xv.centres.length ≤ 2 ∧
    (buildTeam [wZ1, wZ2] wAssign 230).starting_xv.back_3.length ≤ 3 :=
  C7_position_caps [wP1, wP2] 230 4 [1] [] true (.optimal wAssign) _
    (fun a h => by injection h with h2; rw [← h2]; exact wSatisfies)
    wTeam_eq

theorem sum_map_add_nat {α : Type} (l : List α) (F G : α → Nat) :
    (l.map fun z => F z + G z).sum = (l.map F).sum + (l.map G).sum := by
  induction l with
  | nil => simp
  | cons z l ih =>
    simp only [List.map_cons, List.sum_cons, ih]
    omega

theorem mem_countryList (c : Country) : c ∈ countryList := by
  cases c <;> decide

/-- Permutation between the assembled starting XV and the list of selected
starters, available once the solver assignment satisfies the position caps. -/
theorem sp_xv_perm {pool : List OptimiserPlayer} {ss : List PlayerSummary}
    {budget : ℚ} {max_per_country : Int} {locked_players : List Int} {include_bench : Bool}
    {a : Assignment} (hss : toSummaries pool = some ss)
    (hsat : satisfiesConstraints pool budget max_per_country locked_players include_bench a) :
    List.Perm (xvPlayers (buildStartingXV (ss.filter fun z => a.x z.id)))
      (ss.filter fun z => a.x z.id) := by
  obtain ⟨-, hpos, -⟩ := hsat
  exact xvPlayers_perm _
    (starting_singleton_len hss hpos (by decide : (Position.hooker, 1) ∈ POSITION_LIMITS))
    (starting_singleton_len hss hpos (by decide : (Position.scrum_half, 1) ∈ POSITION_LIMITS))
    (starting_singleton_len hss hpos (by decide : (Position.out_half, 1) ∈ POSITION_LIMITS))

/-- The selected-player count of a country, on both sides of the summary
conversion. -/
theorem selected_country_count {pool : List OptimiserPlayer} {ss : List PlayerSummary}
    (hss : toSummaries pool = some ss) (a : Assignment) (sel : Int → Bool) (c : Country) :
    (ss.filter fun z => sel z.id).countP (fun z => decide (z.country = c)) =
      pool.countP (fun p => sel p.id && decide (p.country = c.value)) := by
  rw [List.countP_filter]
  exact forall₂_countP_eq (toSummaries_forall₂ hss) (fun p z hz => by
    obtain ⟨hid, _, _, _, _⟩ := toSummary_spec hz
    rw [hid, summary_match_country hz c, Bool.and_comm])

/-- Claim C6 as stated is false: with a negative country cap the fail-soft
team has zero players of every country, which still exceeds the cap. -/
theorem C6_counterexample :
    optimise_team [] 230 (-1) [] [] true SolverOutcome.failed = .ok (emptyTeam 230) ∧
    ¬((((xvPlayers (emptyTeam 230).starting_xv ++ (emptyTeam 230).bench).countP
        (fun z => decide (z.country = Country.ireland))) : Int) ≤ -1) := by
  refine ⟨rfl, ?_⟩
  decide

/-- Claim C6 amended: for every call with a non-negative max_per_country,
assuming solver soundness, every country has at most max_per_country players
across the returned starting XV and bench. -/
theorem C6_country_caps (players : List OptimiserPlayer) (budget : ℚ)
    (max_per_country : Int) (locked_players excluded_players : List Int) (include_bench : Bool)
    (outcome : SolverOutcome) (t : OptimisedTeam)
    (hm : 0 ≤ max_per_country)
    (hsol : ∀ a, outcome = SolverOutcome.optimal a →
      satisfiesConstraints (availablePlayers players excluded_players) budget max_per_country
        locked_players include_bench a)
    (hres : optimise_team players budget max_per_country locked_players excluded_players
      include_bench outcome = .ok t) :
    ∀ c : Country, (((xvPlayers t.starting_xv ++ t.bench).countP
      (fun z => decide (z.country = c))) : Int) ≤ max_per_country := by
  intro c
  rcases optimise_team_ok_cases hres with ⟨ht, _⟩ | ⟨a, ss, houtcome, hss, _, ht⟩
  · subst ht
    simpa [emptyTeam, xvPlayers] using hm
  · subst ht
    have hsat := hsol a houtcome
    rw [buildTeam_bench, buildTeam_starting_xv, List.countP_append,
      (sp_xv_perm hss hsat).countP_eq, selected_country_count hss a (fun i => a.x i) c,
      selected_country_count hss a (fun i => a.b i) c]
    obtain ⟨-, -, -, hcountry, -⟩ := hsat
    set pool := availablePlayers players excluded_players with hpool
    by_cases hne : pool.filter (fun p => decide (p.country = c.value)) = []
    · have hx : pool.countP (fun p => a.x p.id && decide (p.country = c.value)) = 0 := by
        rw [List.countP_eq_zero]
        intro p hp
        have := List.filter_eq_nil_iff.mp hne p hp
        simp_all
      have hb : pool.countP (fun p => a.b p.id && decide (p.country = c.value)) = 0 := by
        rw [List.countP_eq_zero]
        intro p hp
        have := List.filter_eq_nil_iff.mp hne p hp
        simp_all
      rw [hx, hb]
      simpa using hm
    · have hcon := hcountry c (mem_countryList c) hne
      rw [sum_map_add_nat, sum_condNat, sum_condNat, List.countP_filter, List.countP_filter] at hcon
      exact_mod_cast hcon

/-- Witness for C6 at a concrete successful optimisation. -/
theorem C6_witness :
    (((xvPlayers (buildTeam [wZ1, wZ2] wAssign 230).starting_xv ++
      (buildTeam [wZ1, wZ2] wAssign 230).bench).countP
      (fun z => decide (z.country = Country.ireland))) : Int) ≤ 4 :=
  C6_country_caps [wP1, wP2] 230 4 [1] [] true (.optimal wAssign) _
    (by norm_num)
    (fun a h => by injection h with h2; rw [← h2]; exact wSatisfies)
    wTeam_eq Country.ireland

/-- Claim C8: assuming solver soundness, a present super-sub is on the bench,
a present captain is in the starting XV or on the bench, and no player id
appears in both the starting XV and the bench. -/
theorem C8_selection_invariants (players : List OptimiserPlayer) (budget : ℚ)
    (max_per_country : Int) (locked_players excluded_players : List Int) (include_bench : Bool)
    (outcome : SolverOutcome) (t : OptimisedTeam)
    (hsol : ∀ a, outcome = SolverOutcome.optimal a →
      satisfiesConstraints (availablePlayers players excluded_players) budget max_per_country
        locked_players include_bench a)
    (hres : optimise_team players budget max_per_country locked_players excluded_players
      include_bench outcome = .ok t) :
    (∀ z, t.super_sub = some z → z ∈ t.bench) ∧
    (∀ z, t.captain = some z → (z ∈ xvPlayers t.starting_xv ∨ z ∈ t.bench)) ∧
    (∀ z1 ∈ xvPlayers t.starting_xv, ∀ z2 ∈ t.bench, z1.id ≠ z2.id) := by
  rcases optimise_team_ok_cases hres with ⟨ht, _⟩ | ⟨a, ss, houtcome, hss, _, ht⟩
  · subst ht
    refine ⟨?_, ?_, ?_⟩
    · intro z h
      simp [emptyTeam] at h
    · intro z h
      simp [emptyTeam] at h
    · intro z1 h1 z2 h2
      simp [emptyTeam] at h2
  · subst ht
    have hsat := hsol a houtcome
    have hperm := sp_xv_perm hss hsat
    have hf2 := toSummaries_forall₂ hss
    obtain ⟨-, -, -, -, hexcl, -, hcapsel, hsupersub, -⟩ := hsat
    refine ⟨?_, ?_, ?_⟩
    · intro z hz
      rw [buildTeam_super_sub] at hz
      obtain ⟨hmem, hsz⟩ := lastWhere_eq_some hz
      obtain ⟨p, hp, hpz⟩ := forall₂_mem_right hf2 hmem
      obtain ⟨hid, -, -, -, -⟩ := toSummary_spec hpz
      rw [buildTeam_bench]
      refine List.mem_filter.mpr ⟨hmem, ?_⟩
      by_cases hib : include_bench = true
      · rw [if_pos hib] at hsupersub
        have hsb := hsupersub.2 p hp
        rw [← hid] at hsb
        exact hsb hsz
      · rw [if_neg hib] at hsupersub
        have hsb := hsupersub p hp
        rw [← hid] at hsb
        rw [hsb] at hsz
        cases hsz
    · intro z hz
      rw [buildTeam_captain] at hz
      obtain ⟨hmem, hcz⟩ := lastWhere_eq_some hz
      obtain ⟨p, hp, hpz⟩ := forall₂_mem_right hf2 hmem
      obtain ⟨hid, -, -, -, -⟩ := toSummary_spec hpz
      have hsel := hcapsel p hp (by rw [← hid]; exact hcz)
      rw [buildTeam_starting_xv, buildTeam_bench]
      rcases hsel with hx | hb
      · exact Or.inl (hperm.mem_iff.mpr (List.mem_filter.mpr ⟨hmem, by rw [← hid] at hx; exact hx⟩))
      · exact Or.inr (List.mem_filter.mpr ⟨hmem, by rw [← hid] at hb; exact hb⟩)
    · intro z1 h1 z2 h2 heq
      rw [buildTeam_starting_xv] at h1
      rw [buildTeam_bench] at h2
      obtain ⟨hm1, hx1⟩ := List.mem_filter.mp (hperm.mem_iff.mp h1)
      obtain ⟨hm2, hb2⟩ := List.mem_filter.mp h2
      obtain ⟨p, hp, hpz⟩ := forall₂_mem_right hf2 hm1
      obtain ⟨hid, -, -, -, -⟩ := toSummary_spec hpz
      exact hexcl p hp ⟨by rw [← hid]; exact hx1, by rw [← hid, heq]; exact hb2⟩

/-- Witness for C8 at a concrete successful optimisation. -/
theorem C8_witness :
    (∀ z, (buildTeam [wZ1, wZ2] wAssign 230).super_sub = some z →
      z ∈ (buildTeam [wZ1, wZ2] wAssign 230).bench) ∧
    (∀ z, (buildTeam [wZ1, wZ2] wAssign 230).captain = some z →
      (z ∈ xvPlayers (buildTeam [wZ1, wZ2] wAssign 230).starting_xv ∨
       z ∈ (buildTeam [wZ1, wZ2] wAssign 230).bench)) ∧
    (∀ z1 ∈ xvPlayers (buildTeam [wZ1, wZ2] wAssign 230).starting_xv,
      ∀ z2 ∈ (buildTeam [wZ1, wZ2] wAssign 230).bench, z1.id ≠ z2.id) :=
  C8_selection_invariants [wP1, wP2] 230 4 [1] [] true (.optimal wAssign) _
    (fun a h => by injection h with h2; rw [← h2]; exact wSatisfies)
    wTeam_eq

/-- At the C3 counterexample input the posted constraints are unsatisfiable
(any captain must be selected, and any selection costs 10 > 0), so a sound
solver must report a non-optimal status there. -/
theorem wLockP_infeasible :
    ∀ a : Assignment, ¬ satisfiesConstraints (availablePlayers [wLockP] []) 0 4 [1] true a := by
  intro a hsat
  obtain ⟨hbudget, -, -, -, -, hcapcount, hcapsel, -, -⟩ := hsat
  have hpool : availablePlayers [wLockP] [] = [wLockP] := rfl
  rw [hpool] at hbudget hcapcount hcapsel
  have hc : a.c wLockP.id = true := by
    rw [List.countP_cons, List.countP_nil] at hcapcount
    by_cases h : a.c wLockP.id = true
    · exact h
    · simp [h] at hcapcount
  have hsel := hcapsel wLockP (List.mem_cons_self _ _) hc
  have hb10 : (10 : ℚ) * (boolQ (a.x wLockP.id) + boolQ (a.b wLockP.id)) ≤ 0 := by
    simpa [wLockP] using hbudget
  rcases hsel with hx | hb
  · rw [hx] at hb10
    cases hbv : a.b wLockP.id <;> rw [hbv] at hb10 <;> norm_num [boolQ] at hb10
  · rw [hb] at hb10
    cases hxv : a.x wLockP.id <;> rw [hxv] at hb10 <;> norm_num [boolQ] at hb10

/-- Claim C3 as stated is false: when the solve is infeasible the fail-soft
empty team is returned even though the locked id 1 is in the candidate pool. -/
theorem C3_counterexample :
    optimise_team [wLockP] 0 4 [1] [] true SolverOutcome.failed = .ok (emptyTeam 0) ∧
    (1 : Int) ∈ (availablePlayers [wLockP] []).map OptimiserPlayer.id ∧
    (1 : Int) ∉ ((xvPlayers (emptyTeam 0).starting_xv ++ (emptyTeam 0).bench).map
      PlayerSummary.id) := by
  refine ⟨rfl, ?_, ?_⟩ <;> decide

/-- Claim C3 amended: on the non-fail-soft path (the solver reports an
optimal assignment, sound for the posted constraints), every locked id that
is in the candidate pool appears in the returned starting XV or bench. -/
theorem C3_locked_selected (players : List OptimiserPlayer) (budget : ℚ)
    (max_per_country : Int) (locked_players excluded_players : List Int) (include_bench : Bool)
    (a : Assignment) (t : OptimisedTeam) (i : Int)
    (hsat : satisfiesConstraints (availablePlayers players excluded_players) budget
      max_per_country locked_players include_bench a)
    (hres : optimise_team players budget max_per_country locked_players excluded_players
      include_bench (SolverOutcome.optimal a) = .ok t)
    (hlocked : i ∈ locked_players)
    (hpool : i ∈ (availablePlayers players excluded_players).map OptimiserPlayer.id) :
    i ∈ ((xvPlayers t.starting_xv ++ t.bench).map PlayerSummary.id) := by
  obtain ⟨p0, hp0, hp0id⟩ := List.mem_map.mp hpool
  rcases optimise_team_ok_cases hres with ⟨-, hcase⟩ | ⟨a2, ss, houtcome, hss, -, ht⟩
  · rcases hcase with hnil | hfail
    · rw [hnil] at hp0
      cases hp0
    · cases hfail
  · injection houtcome with ha2
    subst ha2
    subst ht
    have hf2 := toSummaries_forall₂ hss
    have hperm := sp_xv_perm hss hsat
    obtain ⟨-, -, -, -, -, -, -, -, hlock⟩ := hsat
    have hany : (availablePlayers players excluded_players).any (fun p => decide (p.id = i)) = true :=
      List.any_eq_true.mpr ⟨p0, hp0, by simp [hp0id]⟩
    have hsel := hlock i hlocked hany
    obtain ⟨z, hz, hpz⟩ := forall₂_mem_left hf2 hp0
    obtain ⟨hid, -, -, -, -⟩ := toSummary_spec hpz
    have hzid : z.id = i := by rw [hid, hp0id]
    rw [List.map_append]
    rcases hsel with hx | hb
    · refine List.mem_append_left _ (List.mem_map.mpr ⟨z, ?_, hzid⟩)
      rw [buildTeam_starting_xv]
      exact hperm.mem_iff.mpr (List.mem_filter.mpr ⟨hz, by rw [hzid]; exact hx⟩)
    · refine List.mem_append_right _ (List.mem_map.mpr ⟨z, ?_, hzid⟩)
      rw [buildTeam_bench]
      exact List.mem_filter.mpr ⟨hz, by rw [hzid]; exact hb⟩

/-- Witness for the amended C3 at a concrete successful optimisation with
locked player 1. -/
theorem C3_witness :
    (1 : Int) ∈ ((xvPlayers (buildTeam [wZ1, wZ2] wAssign 230).starting_xv ++
      (buildTeam [wZ1, wZ2] wAssign 230).bench).map PlayerSummary.id) :=
  C3_locked_selected [wP1, wP2] 230 4 [1] [] true wAssign _ 1
    wSatisfies wTeam_eq (by decide) (by decide)

/-- Claim C10: when the solver reports an optimal assignment (sound for the
posted constraints), the returned captain is present, the selection is
non-empty, and with the bench enabled the super-sub is present and the bench
is non-empty. -/
theorem C10_captain_super_sub (players : List OptimiserPlayer) (budget : ℚ)
    (max_per_country : Int) (locked_players excluded_players : List Int) (include_bench : Bool)
    (a : Assignment) (t : OptimisedTeam)
    (hsat : satisfiesConstraints (availablePlayers players excluded_players) budget
      max_per_country locked_players include_bench a)
    (hres : optimise_team players budget max_per_country locked_players excluded_players
      include_bench (SolverOutcome.optimal a) = .ok t) :
    t.captain ≠ none ∧ (xvPlayers t.starting_xv ++ t.bench) ≠ [] ∧
    (include_bench = true → (t.super_sub ≠ none ∧ t.bench ≠ [])) := by
  have hcap1 := hsat.2.2.2.2.2.1
  rcases optimise_team_ok_cases hres with ⟨-, hcase⟩ | ⟨a2, ss, houtcome, hss, -, ht⟩
  · rcases hcase with hnil | hfail
    · rw [hnil, List.countP_nil] at hcap1
      cases hcap1
    · cases hfail
  · injection houtcome with ha2
    subst ha2
    subst ht
    have hf2 := toSummaries_forall₂ hss
    have hperm := sp_xv_perm hss hsat
    obtain ⟨-, -, -, -, -, hcapcount, hcapsel, hsupersub, -⟩ := hsat
    have hcapz : ∃ p ∈ availablePlayers players excluded_players, a.c p.id = true :=
      List.countP_pos.mp (by rw [hcapcount]; exact Nat.one_pos)
    obtain ⟨p, hp, hcp⟩ := hcapz
    obtain ⟨z, hz, hpz⟩ := forall₂_mem_left hf2 hp
    obtain ⟨hid, -, -, -, -⟩ := toSummary_spec hpz
    have hcz : a.c z.id = true := by rw [hid]; exact hcp
    constructor
    · rw [buildTeam_captain]
      exact lastWhere_ne_none hz hcz
    constructor
    · have hsel := hcapsel p hp hcp
      rcases hsel with hx | hb
      · refine List.ne_nil_of_mem (a := z) (List.mem_append_left _ ?_)
        rw [buildTeam_starting_xv]
        exact hperm.mem_iff.mpr (List.mem_filter.mpr ⟨hz, by rw [hid]; exact hx⟩)
      · refine List.ne_nil_of_mem (a := z) (List.mem_append_right _ ?_)
        rw [buildTeam_bench]
        exact List.mem_filter.mpr ⟨hz, by rw [hid]; exact hb⟩
    · intro hib
      rw [if_pos hib] at hsupersub
      obtain ⟨hscount, hsimpl⟩ := hsupersub
      obtain ⟨q, hq, hsq⟩ := List.countP_pos.mp (by rw [hscount]; exact Nat.one_pos)
      obtain ⟨w, hw, hqw⟩ := forall₂_mem_left hf2 hq
      obtain ⟨hwid, -, -, -, -⟩ := toSummary_spec hqw
      have hbw : a.b w.id = true := by rw [hwid]; exact hsimpl q hq hsq
      have hsw : a.s w.id = true := by rw [hwid]; exact hsq
      constructor
      · rw [buildTeam_super_sub]
        exact lastWhere_ne_none hw hsw
      · rw [buildTeam_bench]
        exact List.ne_nil_of_mem (List.mem_filter.mpr ⟨hw, hbw⟩)

/-- Witness for C10 at a concrete successful optimisation. -/
theorem C10_witness :
    (buildTeam [wZ1, wZ2] wAssign 230).captain ≠ none ∧
    (xvPlayers (buildTeam [wZ1, wZ2] wAssign 230).starting_xv ++
      (buildTeam [wZ1, wZ2] wAssign 230).bench) ≠ [] ∧
    (true = true → ((buildTeam [wZ1, wZ2] wAssign 230).super_sub ≠ none ∧
      (buildTeam [wZ1, wZ2] wAssign 230).bench ≠ [])) :=
  C10_captain_super_sub [wP1, wP2] 230 4 [1] [] true wAssign _ wSatisfies wTeam_eq

/-- Claim C4: the scoring function is exactly the fixed linear weighting the
spec states, and the all-zero stat line scores 0; the function is total on
PlayerStats. -/
theorem C4_scoring_formula :
    (∀ s : PlayerStats, calculate_fantasy_points s = scoringSpecFormula s) ∧
    calculate_fantasy_points {} = 0 := by
  constructor
  · intro s
    unfold calculate_fantasy_points scoringSpecFormula
    cases s.is_forward <;> cases s.player_of_match <;> push_cast <;> ring
  · norm_num [calculate_fantasy_points, Int.fdiv]

/-- Record equality for predictions that share the same underlying value. -/
theorem prediction_eq_of_value_eq {v w : ℚ} (h : v = w) :
    ({ predicted_points := round2 v,
       confidence_lower := round2 (v - 1.645 * max 3.0 (v * 0.2)),
       confidence_upper := round2 (v + 1.645 * max 3.0 (v * 0.2)) } : Prediction) =
    { predicted_points := round2 w,
      confidence_lower := round2 (w - 1.645 * max 3.0 (0.2 * w)),
      confidence_upper := round2 (w + 1.645 * max 3.0 (0.2 * w)) } := by
  subst h
  rw [mul_comm v (0.2 : ℚ)]

/-- Claim C5 as stated is false: with last-3 average 10 and last-5 average
-15 the blend is zero, so the code substitutes the positional default (15 for
a back) while the claim formula, whose default applies only when no history
exists, predicts 0. -/
theorem C5_counterexample :
    Predictor.predict { model := none } cexFeatures ≠ claimC5Predict cexFeatures := by
  intro h
  have h2 := congrArg Prediction.predicted_points h
  norm_num [Predictor.predict, Predictor.heuristic_predict, claimC5Predict, cexFeatures,
    round2, round_eq] at h2

/-- Claim C5 amended: with no trained model loaded, predict returns exactly
the claimed heuristic formula, with the positional default applying whenever
the 60/40 blend is zero (not only when no history exists). -/
theorem C5_heuristic_formula (features : PlayerFeatures) :
    Predictor.predict { model := none } features = claimC5AmendedPredict features := by
  show Predictor.heuristic_predict features = claimC5AmendedPredict features
  unfold Predictor.heuristic_predict claimC5AmendedPredict
  rcases ho : features.anytime_try_odds with _ | odds
  · by_cases hb : features.fantasy_points_last_3 * 0.6 + features.fantasy_points_last_5 * 0.4 = 0 <;>
      cases hk : features.is_kicker <;>
      cases hst : features.is_starting <;>
      cases hh : features.is_home <;>
      simp only [ho, hb, hk, hst, hh, Bool.not_true, Bool.not_false, if_true, if_false,
        Bool.false_eq_true, Bool.true_eq_false, ite_true, ite_false, eq_self_iff_true] <;>
      exact prediction_eq_of_value_eq (by ring)
  · by_cases hop : (0 : ℚ) < odds
    · have hne : odds ≠ 0 := ne_of_gt hop
      by_cases hb : features.fantasy_points_last_3 * 0.6 + features.fantasy_points_last_5 * 0.4 = 0 <;>
        cases hk : features.is_kicker <;>
        cases hst : features.is_starting <;>
        cases hh : features.is_home <;>
        simp only [ho, hb, hk, hst, hh, hop, hne, Bool.not_true, Bool.not_false, if_true,
          if_false, Bool.false_eq_true, Bool.true_eq_false, ite_true, ite_false,
          eq_self_iff_true, gt_iff_lt, and_self, not_false_iff, and_true, true_and,
          ne_eq, not_false_eq_true] <;>
        exact prediction_eq_of_value_eq (by ring)
    · by_cases hb : features.fantasy_points_last_3 * 0.6 + features.fantasy_points_last_5 * 0.4 = 0 <;>
        cases hk : features.is_kicker <;>
        cases hst : features.is_starting <;>
        cases hh : features.is_home <;>
        simp only [ho, hb, hk, hst, hh, hop, Bool.not_true, Bool.not_false, if_true, if_false,
          Bool.false_eq_true, Bool.true_eq_false, ite_true, ite_false, eq_self_iff_true,
          gt_iff_lt, and_false, false_and, and_self] <;>
        exact prediction_eq_of_value_eq (by ring)

end SixNations
